import Mathlib

/- Shallow embedding of the persistent log engine in
src/src/persistent/SPDKPersistLog.cpp.  Machine integers are modelled as
Int (the int64_t fields) and Nat (the uint64_t fields); every value
handled by the theorems below stays far below 2^63, so wrap-around never
occurs on these runs and no modular reduction is inserted. -/

/-- Hybrid logical clock argument of append; the source reads
mhlc.m_rtc_us and mhlc.m_logic, both uint64_t. -/
structure HLC where
  m_rtc_us : Nat
  m_logic : Nat
  deriving DecidableEq

/-- Fields of a log entry (LogEntry fields in the source): ver is
int64_t, the others uint64_t. -/
structure LogEntry where
  ver : Int
  hlc_r : Nat
  hlc_l : Nat
  dlen : Nat
  ofst : Nat
  deriving DecidableEq

/-- The all-zero entry: content of device entry slots never written. -/
def zeroEntry : LogEntry := ⟨0, 0, 0, 0, 0⟩

/-- Per-log metadata (METADATA in the source): head, tail, ver are
int64_t, inuse a flag. -/
structure LogMetadata where
  head : Int
  tail : Int
  ver : Int
  inuse : Bool
  deriving DecidableEq

/-- Modelled from the spec: sizeof(LogEntry), SPDK_SEGMENT_BIT and
SPDK_LOG_ENTRY_ADDRESS_TABLE_LENGTH are constants of
detail/SPDKPersistLog.hpp, a header that is not under src/, so they are
kept abstract as a configuration record.  The spec's ENTRIES_PER_SEGMENT
is 2 ^ segBit / entrySize (segment size divided by entry size). -/
structure SPDKConfig where
  entrySize : Nat
  segBit : Nat
  tableLen : Nat
  deriving DecidableEq

/-- Representative instantiation for the concrete runs below: 64-byte
entries, 4 KiB segments (segBit = 12), a 4-slot entry address table.
No concrete result below depends on these values except where the value
is restated inside the theorem itself. -/
def defaultCfg : SPDKConfig := ⟨64, 12, 4⟩

/-- State of one log: the in-memory metadata, the metadata last committed
through update_metadata or PersistThreads append, and the device-backed
stores reached through read_entry / read_data, modelled as total maps
from the int64_t entry index.  Indices outside [head, tail) hold stale
device content (zeroEntry / empty payload in the concrete states below). -/
structure LogState where
  meta : LogMetadata
  committed : LogMetadata
  entries : Int → LogEntry
  data : Int → List Nat

/-- Modelled from the spec: INVALID_INDEX is defined in a header that is
not under src/; the spec identifies it with lower_bound's no-match
result, which the source returns as head - 1 = -1 on a fresh log. -/
def INVALID_INDEX : Int := -1

/-- The two errors append / advanceVersion surface by throwing
derecho_exception. -/
inductive LogErr where
  | versionRegression
  | logFull
  deriving DecidableEq

/-- Fuel bounding the binary-search loops: each iteration of the source
loops strictly shrinks end - begin, so tail - head + 2 steps exceed the
iteration count of every run that starts from the log's own head and
tail.  The loops below recurse on this fuel to stay structurally
recursive; no execution in this file comes near exhausting it. -/
def searchFuel (s : LogState) : Nat := (s.meta.tail - s.meta.head).toNat + 2

/-- Loop of upper_bound(version_t) (source lines 238-247): mid is
(begin + end) / 2 with C++ truncating division, Int.tdiv here.  Returns
the final begin together with the trace of indices passed to
read_entry. -/
def ubVerLoop (s : LogState) (ver : Int) : Nat → Int → Int → List Int → Int × List Int
  | 0, b, _, rs => (b, rs)
  | f + 1, b, e, rs =>
    if b < e then
      let mid := (b + e).tdiv 2
      let cv := (s.entries mid).ver
      if ver ≥ cv then ubVerLoop s ver f (mid + 1) e (rs ++ [mid])
      else ubVerLoop s ver f b (mid - 1) (rs ++ [mid])
    else (b, rs)

/-- upper_bound(version_t) with its read_entry trace: after the loop the
source reads the entry at begin - 1 unconditionally — also on an empty
log, where begin - 1 = head - 1 lies outside [head, tail). -/
def upper_bound_ver_trace (s : LogState) (ver : Int) : Int × List Int :=
  let r := ubVerLoop s ver (searchFuel s) s.meta.head (s.meta.tail - 1) []
  let rs := r.2 ++ [r.1 - 1]
  if (s.entries (r.1 - 1)).ver = ver then (r.1 - 1, rs) else (r.1, rs)

/-- Result of upper_bound(version_t). -/
def upper_bound_ver (s : LogState) (ver : Int) : Int :=
  (upper_bound_ver_trace s ver).1

/-- Loop of lower_bound(version_t) (source lines 257-266); the value used
afterwards is end. -/
def lbVerLoop (s : LogState) (ver : Int) : Nat → Int → Int → List Int → Int × List Int
  | 0, _, e, rs => (e, rs)
  | f + 1, b, e, rs =>
    if b ≤ e then
      let mid := (b + e).tdiv 2
      let cv := (s.entries mid).ver
      if ver ≤ cv then lbVerLoop s ver f b (mid - 1) (rs ++ [mid])
      else lbVerLoop s ver f (mid + 1) e (rs ++ [mid])
    else (e, rs)

/-- lower_bound(version_t) with its read_entry trace: the final check
reads the entry at end + 1, which on an empty log is the index tail
itself, outside [head, tail). -/
def lower_bound_ver_trace (s : LogState) (ver : Int) : Int × List Int :=
  let r := lbVerLoop s ver (searchFuel s) s.meta.head (s.meta.tail - 1) []
  let rs := r.2 ++ [r.1 + 1]
  if (s.entries (r.1 + 1)).ver = ver then (r.1 + 1, rs) else (r.1, rs)

/-- Result of lower_bound(version_t). -/
def lower_bound_ver (s : LogState) (ver : Int) : Int :=
  (lower_bound_ver_trace s ver).1

/-- Loop of upper_bound(HLC) (source lines 276-284). -/
def ubHlcLoop (s : LogState) (h : HLC) : Nat → Int → Int → List Int → Int × List Int
  | 0, b, _, rs => (b, rs)
  | f + 1, b, e, rs =>
    if b ≤ e then
      let mid := (b + e).tdiv 2
      let en := s.entries mid
      if ¬(en.hlc_r > h.m_rtc_us ∨ (en.hlc_r = h.m_rtc_us ∧ en.hlc_l > h.m_logic)) then
        ubHlcLoop s h f (mid + 1) e (rs ++ [mid])
      else ubHlcLoop s h f b (mid - 1) (rs ++ [mid])
    else (b, rs)

/-- upper_bound(HLC) with its read_entry trace: the final check calls
read_entry(begin - 1) once for hlc_r and, only when that matched, a
second time for hlc_l (the source's && short-circuits between two
separate read_entry calls). -/
def upper_bound_hlc_trace (s : LogState) (h : HLC) : Int × List Int :=
  let r := ubHlcLoop s h (searchFuel s) s.meta.head (s.meta.tail - 1) []
  let rs := r.2 ++ [r.1 - 1]
  if (s.entries (r.1 - 1)).hlc_r = h.m_rtc_us then
    if (s.entries (r.1 - 1)).hlc_l = h.m_logic then (r.1 - 1, rs ++ [r.1 - 1])
    else (r.1, rs ++ [r.1 - 1])
  else (r.1, rs)

/-- Loop of lower_bound(HLC) (source lines 294-302). -/
def lbHlcLoop (s : LogState) (h : HLC) : Nat → Int → Int → List Int → Int × List Int
  | 0, _, e, rs => (e, rs)
  | f + 1, b, e, rs =>
    if b ≤ e then
      let mid := (b + e).tdiv 2
      let en := s.entries mid
      if ¬(en.hlc_r < h.m_rtc_us ∨ (en.hlc_r = h.m_rtc_us ∧ en.hlc_l < h.m_logic)) then
        lbHlcLoop s h f b (mid - 1) (rs ++ [mid])
      else lbHlcLoop s h f (mid + 1) e (rs ++ [mid])
    else (e, rs)

/-- lower_bound(HLC) with its read_entry trace (final check at end + 1,
two short-circuited reads). -/
def lower_bound_hlc_trace (s : LogState) (h : HLC) : Int × List Int :=
  let r := lbHlcLoop s h (searchFuel s) s.meta.head (s.meta.tail - 1) []
  let rs := r.2 ++ [r.1 + 1]
  if (s.entries (r.1 + 1)).hlc_r = h.m_rtc_us then
    if (s.entries (r.1 + 1)).hlc_l = h.m_logic then (r.1 + 1, rs ++ [r.1 + 1])
    else (r.1, rs ++ [r.1 + 1])
  else (r.1, rs)

/-- Loop of getHLCIndex (source lines 199-210), kept verbatim: a match is
declared as soon as hlc_r alone agrees, and the descent comparison reads
fields.hlc_r where hlc.m_logic is compared against it — the source's own
misassignment, preserved here. -/
def ghiLoop (s : LogState) (h : HLC) : Nat → Int → Int → Int
  | 0, _, _ => -1
  | f + 1, b, e =>
    if b ≤ e then
      let mid := (b + e).tdiv 2
      let en := s.entries mid
      if en.hlc_r = h.m_rtc_us then mid
      else if ¬(en.hlc_r > h.m_rtc_us ∨ (en.hlc_r = h.m_rtc_us ∧ en.hlc_r > h.m_logic)) then
        ghiLoop s h f (mid + 1) e
      else ghiLoop s h f b (mid - 1)
    else -1

/-- getHLCIndex: none models the thrown Failed-to-find-the-hlc
exception (res left at -1). -/
def getHLCIndex (s : LogState) (h : HLC) : Option Int :=
  let res := ghiLoop s h (searchFuel s) s.meta.head (s.meta.tail - 1)
  if res = -1 then none else some res

/-- append (source lines 74-122).  Both throw sites precede every
mutation, so an error leaves the state exactly as passed.  The capacity
check is the source's ((sizeof(LogEntry) * tail) >> SPDK_SEGMENT_BIT) -
((sizeof(LogEntry) * head) >> SPDK_SEGMENT_BIT) >
SPDK_LOG_ENTRY_ADDRESS_TABLE_LENGTH, written with floor division, which
equals the source's shift for the nonnegative head and tail of every
state considered here.  The hlc assignments preserve the source
verbatim: fields.hlc_l is assigned mhlc.m_rtc_us and then mhlc.m_logic,
and fields.hlc_r is never written, keeping the stale device value.  On
success PersistThreads append persists the entry, the payload (dlen
bytes of pdata) and the current root metadata. -/
def append (cfg : SPDKConfig) (s : LogState) (pdata : List Nat) (size : Nat)
    (ver : Int) (mhlc : HLC) : LogState × Option LogErr :=
  if ver ≤ s.meta.ver then (s, some LogErr.versionRegression)
  else if ((cfg.entrySize : Int) * s.meta.tail) / 2 ^ cfg.segBit
      - ((cfg.entrySize : Int) * s.meta.head) / 2 ^ cfg.segBit > (cfg.tableLen : Int) then
    (s, some LogErr.logFull)
  else
    let stale := s.entries s.meta.tail
    let ne := { stale with dlen := size, ver := ver, hlc_l := mhlc.m_logic }
    let lastE := s.entries (s.meta.tail - 1)
    let ne2 := if s.meta.tail - s.meta.head = 0 then { ne with ofst := 0 }
      else { ne with ofst := lastE.ofst + lastE.dlen }
    let m := { s.meta with ver := ver, tail := s.meta.tail + 1 }
    ({ meta := m, committed := m,
       entries := fun i => if i = s.meta.tail then ne2 else s.entries i,
       data := fun i => if i = s.meta.tail then pdata.take size else s.data i }, none)

/-- advanceVersion (source lines 124-136): bump ver and commit, or throw
VersionRegression before any mutation. -/
def advanceVersion (s : LogState) (ver : Int) : LogState × Option LogErr :=
  if ver ≤ s.meta.ver then (s, some LogErr.versionRegression)
  else
    let m := { s.meta with ver := ver }
    ({ s with meta := m, committed := m }, none)

/-- getLatestIndex (source lines 157-163): tail - 1. -/
def getLatestIndex (s : LogState) : Int := s.meta.tail - 1

/-- getEntry(version_t) (source lines 344-352): read_data at the
lower_bound index, with no bounds check and no NotFound path. -/
def getEntry (s : LogState) (ver : Int) : List Nat :=
  s.data (lower_bound_ver s ver)

/-- zeroout (source lines 517-526): reset head, tail and inuse in the
metadata (ver untouched) and commit it. -/
def zeroout (s : LogState) : LogState :=
  let m := { s.meta with head := 0, tail := 0, inuse := false }
  { s with meta := m, committed := m }

/-- truncate (source lines 507-515): tail becomes the upper_bound of ver
and the metadata is committed; device entries are not erased. -/
def truncate (s : LogState) (ver : Int) : LogState :=
  let idx := upper_bound_ver s ver
  let m := { s.meta with tail := idx }
  { s with meta := m, committed := m }

/-- Wire buffer at record granularity: the two int64 header words, then
one LogEntry-sized region and one payload region per record slot.  The
slot-indexed maps stand for the byte regions the source addresses by the
running ofst; the exact packed layout of LogEntry lives in a header that
is not under src/, so the regions are kept structured. -/
structure WireBuf where
  hdrVer : Int
  hdrN : Int
  recs : Int → LogEntry
  pay : Int → List Nat

/-- Loop of to_bytes (source lines 420-430).  Both std::copy calls have
their first two arguments in the buffer and the destination in the
device cache, so the copies run backwards: the device entry at index k
is overwritten with the buffer's record slot, and the device payload
with the buffer's payload bytes, whose length is then read from the
just-overwritten entry.  The buffer itself receives nothing here.
tl is the loop's METADATA.tail, unchanged by the loop body. -/
def toBytesLoop (cfg : SPDKConfig) (buf : WireBuf) (tl index0 : Int) :
    Nat → Int → LogState → Nat → LogState × Nat
  | 0, _, s, ofst => (s, ofst)
  | f + 1, k, s, ofst =>
    if k < tl then
      let e := buf.recs (k - index0)
      let s1 : LogState := { s with entries := fun i => if i = k then e else s.entries i }
      let d := (buf.pay (k - index0)).take e.dlen
      let s2 : LogState := { s1 with data := fun i => if i = k then d else s1.data i }
      toBytesLoop cfg buf tl index0 f (k + 1) s2 (ofst + cfg.entrySize + e.dlen)
    else (s, ofst)

/-- to_bytes (source lines 408-435): the header (METADATA.ver and the
entry count) is written into the buffer correctly, then the loop above
runs; the returned value is the final ofst.  Returns the mutated log
state, the buffer, and the returned size. -/
def to_bytes (cfg : SPDKConfig) (s : LogState) (buf : WireBuf) (ver : Int) :
    LogState × WireBuf × Nat :=
  let index := upper_bound_ver s ver
  let buf1 := { buf with hdrVer := s.meta.ver,
                         hdrN := if index = INVALID_INDEX then 0 else s.meta.tail - index }
  if index = INVALID_INDEX then (s, buf1, 16)
  else
    let r := toBytesLoop cfg buf s.meta.tail index ((s.meta.tail - index).toNat + 1) index s 16
    (r.1, buf1, r.2)

/-- Loop body of applyLogTail (source lines 473-502), one iteration per
record slot j.  The skip branch compares the wire record's ver with
METADATA.ver.  In the apply branch the std::copy at line 484 has the
device entry at tail as its source range and the wire record as
destination, so the wire record is overwritten with the stale device
entry and the device entry receives nothing but its ofst; the source's
copy moreover spans sizeof(LogEntry) LogEntry objects, spilling past the
record into the following payload bytes — the model keeps the first
copied object, the only one read back below, where the spilled payload
is read only through a zero length.  METADATA.ver is then set from the
overwritten record (line 492), i.e. from the stale device entry, and
PersistThreads append persists last_entry's dlen (line 497) bytes of the
wire payload.  The slot argument (tail - 1) is kept at its logical
value. -/
def applyTailLoop (v : WireBuf) : Nat → Int → LogState → LogState
  | 0, _, s => s
  | n + 1, j, s =>
    let le := v.recs j
    if le.ver ≤ s.meta.ver then applyTailLoop v n (j + 1) s
    else
      let nle := s.entries s.meta.tail
      let lastE := s.entries (s.meta.tail - 1)
      let newOfst := if s.meta.tail - s.meta.head = 0 then 0 else lastE.ofst + lastE.dlen
      let newDev := { nle with ofst := newOfst }
      let m := { s.meta with ver := nle.ver, tail := s.meta.tail + 1 }
      let d := (v.pay j).take lastE.dlen
      let s2 : LogState :=
        ⟨m, m, fun i => if i = s.meta.tail then newDev else s.entries i,
         fun i => if i = s.meta.tail then d else s.data i⟩
      applyTailLoop v n (j + 1) s2

/-- applyLogTail (source lines 463-505): reads the header (the latest
version word is read and never used) and iterates the loop body
nr_log_entry times; a nonpositive count runs no iteration (the source's
while(nr_log_entry--) would reinterpret a negative count, which no run
below produces). -/
def applyLogTail (s : LogState) (v : WireBuf) : LogState :=
  applyTailLoop v v.hdrN.toNat 0 s

/-- Log of scenario 1 of the spec: three entries with versions 1, 2, 3 at
indices 0, 1, 2, payloads a, bb, ccc, hlc values (100,0), (101,0),
(102,0), head = 0, tail = 3, metadata.ver = 3; the device is zero
elsewhere. -/
def scenario1 : LogState :=
  { meta := ⟨0, 3, 3, true⟩, committed := ⟨0, 3, 3, true⟩,
    entries := fun i =>
      if i = 0 then ⟨1, 100, 0, 1, 0⟩
      else if i = 1 then ⟨2, 101, 0, 2, 1⟩
      else if i = 2 then ⟨3, 102, 0, 3, 3⟩
      else zeroEntry,
    data := fun i =>
      if i = 0 then [97] else if i = 1 then [98, 98]
      else if i = 2 then [99, 99, 99] else [] }

/-- A log holding exactly one entry: ver 1, hlc (100, 5), one payload
byte 97 at ofst 0; head = 0, tail = 1, metadata.ver = 1, zeros
elsewhere. -/
def oneEntryLog : LogState :=
  { meta := ⟨0, 1, 1, true⟩, committed := ⟨0, 1, 1, true⟩,
    entries := fun i => if i = 0 then ⟨1, 100, 5, 1, 0⟩ else zeroEntry,
    data := fun i => if i = 0 then [97] else [] }

/-- An empty log: head = tail = 0, metadata.ver = -1, zeroed device. -/
def emptyLog : LogState :=
  { meta := ⟨0, 0, -1, true⟩, committed := ⟨0, 0, -1, true⟩,
    entries := fun _ => zeroEntry, data := fun _ => [] }

/-- A fresh log with metadata.ver = 0, otherwise as emptyLog. -/
def freshLog : LogState :=
  { meta := ⟨0, 0, 0, true⟩, committed := ⟨0, 0, 0, true⟩,
    entries := fun _ => zeroEntry, data := fun _ => [] }

/-- A zero-initialized wire buffer. -/
def zeroWire : WireBuf := ⟨0, 0, fun _ => zeroEntry, fun _ => []⟩

/-- A log at the spec's claimed capacity bound for defaultCfg:
head = 0, tail = tableLen * (2 ^ segBit / entrySize) = 4 * 64 = 256,
metadata.ver = 0, zeroed device. -/
def capacityLog : LogState :=
  { meta := ⟨0, 256, 0, true⟩, committed := ⟨0, 256, 0, true⟩,
    entries := fun _ => zeroEntry, data := fun _ => [] }

/-- A binary-search loop step with begin not below end exits at once,
whatever the fuel: used where the interval is empty from the start. -/
theorem ubVerLoop_exit (s : LogState) (ver : Int) (f : Nat) (b e : Int) (rs : List Int)
    (h : ¬ b < e) : ubVerLoop s ver f b e rs = (b, rs) := by
  cases f with
  | zero => rfl
  | succ f => simp [ubVerLoop, h]

/-- The to_bytes loop with k not below METADATA.tail runs no iteration,
whatever the fuel. -/
theorem toBytesLoop_exit (cfg : SPDKConfig) (buf : WireBuf) (tl index0 : Int)
    (f : Nat) (k : Int) (s : LogState) (ofst : Nat) (h : ¬ k < tl) :
    toBytesLoop cfg buf tl index0 f k s ofst = (s, ofst) := by
  cases f with
  | zero => rfl
  | succ f => simp [toBytesLoop, h]

/-- C2: append and advanceVersion called with ver ≤ metadata.ver raise
VersionRegression and return the state exactly as passed (both throw
sites precede every mutation); with ver > metadata.ver neither raises
VersionRegression. -/
theorem C2_version_regression (cfg : SPDKConfig) (s : LogState) (pdata : List Nat)
    (size : Nat) (ver : Int) (mhlc : HLC) :
    (ver ≤ s.meta.ver →
      append cfg s pdata size ver mhlc = (s, some LogErr.versionRegression) ∧
      advanceVersion s ver = (s, some LogErr.versionRegression)) ∧
    (s.meta.ver < ver →
      (append cfg s pdata size ver mhlc).2 ≠ some LogErr.versionRegression ∧
      (advanceVersion s ver).2 ≠ some LogErr.versionRegression) := by
  constructor
  · intro h
    exact ⟨by simp [append, h], by simp [advanceVersion, h]⟩
  · intro h
    have h' : ¬ ver ≤ s.meta.ver := not_le.mpr h
    constructor
    · simp only [append, if_neg h']
      split
      · simp
      · simp
    · simp [advanceVersion, h']

/-- Witness for C2 at a concrete log: freshLog has metadata.ver = 0, so
ver = 0 regresses with the state returned unchanged and ver = 1 does
not regress. -/
theorem C2_version_regression_witness :
    append defaultCfg freshLog [] 0 0 ⟨0, 0⟩ = (freshLog, some LogErr.versionRegression) ∧
    (append defaultCfg freshLog [] 0 1 ⟨0, 0⟩).2 ≠ some LogErr.versionRegression :=
  ⟨((C2_version_regression defaultCfg freshLog [] 0 0 ⟨0, 0⟩).1 (by decide)).1,
   ((C2_version_regression defaultCfg freshLog [] 0 1 ⟨0, 0⟩).2 (by decide)).1⟩

/-- C3 (code bug): append on a fresh zeroed log with ver = 1 and
hlc = (m_rtc_us 100, m_logic 5) succeeds but stores hlc_r = 0 (the stale
device value — both source assignments write hlc_l) and hlc_l = 5; the
claim requires the stored hlc_r to equal m_rtc_us = 100. -/
theorem C3_append_hlc_eval :
    (append defaultCfg freshLog [97] 1 1 ⟨100, 5⟩).2 = none ∧
    ((append defaultCfg freshLog [97] 1 1 ⟨100, 5⟩).1.entries 0).hlc_r = 0 ∧
    ((append defaultCfg freshLog [97] 1 1 ⟨100, 5⟩).1.entries 0).hlc_l = 5 := by
  decide

/-- C4 counterexample: on the scenario-1 log (metadata.ver = 3), zeroout
followed by append(ver = 1) raises VersionRegression instead of
succeeding, because zeroout leaves metadata.ver at 3. -/
theorem C4_counterexample :
    (append defaultCfg (zeroout scenario1) [97] 1 1 ⟨103, 0⟩).2
        = some LogErr.versionRegression ∧
    scenario1.meta.ver = 3 := by decide

/-- C4 amended: when the pre-zeroout metadata.ver is below 1, zeroout
followed by append(ver = 1) succeeds and yields head = 0, tail = 1. -/
theorem C4_amended (cfg : SPDKConfig) (s : LogState) (pdata : List Nat)
    (size : Nat) (mhlc : HLC) (h : s.meta.ver < 1) :
    (append cfg (zeroout s) pdata size 1 mhlc).2 = none ∧
    (append cfg (zeroout s) pdata size 1 mhlc).1.meta.head = 0 ∧
    (append cfg (zeroout s) pdata size 1 mhlc).1.meta.tail = 1 := by
  have h' : ¬ (1 : Int) ≤ (zeroout s).meta.ver := not_le.mpr h
  have hcap : ¬ (((cfg.entrySize : Int) * (zeroout s).meta.tail) / 2 ^ cfg.segBit
      - ((cfg.entrySize : Int) * (zeroout s).meta.head) / 2 ^ cfg.segBit
      > (cfg.tableLen : Int)) := by
    show ¬ (((cfg.entrySize : Int) * 0) / 2 ^ cfg.segBit
      - ((cfg.entrySize : Int) * 0) / 2 ^ cfg.segBit > (cfg.tableLen : Int))
    simp
  simp only [append, if_neg h', if_neg hcap]
  simp [zeroout]

/-- Witness for C4 amended: freshLog has metadata.ver = 0 < 1. -/
theorem C4_amended_witness :
    (append defaultCfg (zeroout freshLog) [97] 1 1 ⟨100, 0⟩).2 = none ∧
    (append defaultCfg (zeroout freshLog) [97] 1 1 ⟨100, 0⟩).1.meta.head = 0 ∧
    (append defaultCfg (zeroout freshLog) [97] 1 1 ⟨100, 0⟩).1.meta.tail = 1 :=
  C4_amended defaultCfg freshLog [97] 1 ⟨100, 0⟩ (by decide)

/-- C5 counterexample: on the scenario-1 log, truncate(ver = 1) sets
tail to 0, not to 1, and getLatestIndex() then returns -1, not 0: the
source's upper_bound(1) is the smallest live index with ver ≥ 1, which
is 0. -/
theorem C5_counterexample :
    (truncate scenario1 1).meta.tail = 0 ∧
    (truncate scenario1 1).meta.tail ≠ 1 ∧
    getLatestIndex (truncate scenario1 1) ≠ 0 := by decide

/-- C5 amended: on the scenario-1 log, truncate(ver = 1) sets tail to
upper_bound(1) = 0 and commits the metadata; afterwards getLatestIndex()
returns -1, lower_bound(2) returns INVALID_INDEX, and getEntry(ver = 2)
does not fail with NotFound — it reads the payload at index
INVALID_INDEX (empty on this device). -/
theorem C5_amended :
    upper_bound_ver scenario1 1 = 0 ∧
    (truncate scenario1 1).meta.tail = 0 ∧
    (truncate scenario1 1).committed = (truncate scenario1 1).meta ∧
    getLatestIndex (truncate scenario1 1) = -1 ∧
    lower_bound_ver (truncate scenario1 1) 2 = INVALID_INDEX ∧
    getEntry (truncate scenario1 1) 2 = (truncate scenario1 1).data INVALID_INDEX := by
  refine ⟨by decide, by decide, rfl, by decide, by decide, ?_⟩
  show (truncate scenario1 1).data (lower_bound_ver (truncate scenario1 1) 2)
      = (truncate scenario1 1).data INVALID_INDEX
  have h : lower_bound_ver (truncate scenario1 1) 2 = INVALID_INDEX := by decide
  rw [h]

/-- C6 (code bug): on an empty log (head = tail = 0, zeroed device) the
four binary searches do touch device storage — upper_bound reads the
entry at head - 1 = -1 and lower_bound the entry at tail = 0, both
outside [head, tail) — and upper_bound returns head = 0 rather than
INVALID_INDEX = -1. -/
theorem C6_empty_search_eval :
    emptyLog.meta.head = 0 ∧ emptyLog.meta.tail = 0 ∧
    upper_bound_ver_trace emptyLog 5 = (0, [-1]) ∧
    lower_bound_ver_trace emptyLog 5 = (-1, [0]) ∧
    upper_bound_hlc_trace emptyLog ⟨5, 5⟩ = (0, [-1]) ∧
    lower_bound_hlc_trace emptyLog ⟨5, 5⟩ = (-1, [0]) ∧
    INVALID_INDEX = -1 := by decide

/-- C7 counterexample: on a one-entry log with metadata.ver = 1,
to_bytes with ver = 1 (so ver ≥ metadata.ver) writes an entry count of
1, not 0, and returns 80 = 16 + sizeof(LogEntry) + 0, not 16: the
source's upper_bound(1) returns tail - 1 = 0, not INVALID_INDEX. -/
theorem C7_counterexample :
    oneEntryLog.meta.ver = 1 ∧
    (to_bytes defaultCfg oneEntryLog zeroWire 1).2.1.hdrN = 1 ∧
    (to_bytes defaultCfg oneEntryLog zeroWire 1).2.2 = 80 := by decide

/-- C7 amended: only on an empty log (head = tail = 0, with the stale
device entry at index -1 not carrying version ver) does to_bytes write
exactly the two-field header — metadata.ver and an entry count of 0 —
and return 2 * sizeof(int64_t) = 16, leaving the log unchanged. -/
theorem C7_amended (cfg : SPDKConfig) (s : LogState) (buf : WireBuf) (ver : Int)
    (hh : s.meta.head = 0) (ht : s.meta.tail = 0)
    (hg : (s.entries (-1)).ver ≠ ver) :
    to_bytes cfg s buf ver = (s, { buf with hdrVer := s.meta.ver, hdrN := 0 }, 16) := by
  have hub : upper_bound_ver s ver = 0 := by
    unfold upper_bound_ver upper_bound_ver_trace
    rw [hh, ht, ubVerLoop_exit s ver (searchFuel s) 0 (0 - 1) [] (by norm_num)]
    have h1 : (0 : Int) - 1 = -1 := by norm_num
    simp only [h1, if_neg hg]
  unfold to_bytes
  rw [hub]
  have hni : ¬ ((0 : Int) = INVALID_INDEX) := by decide
  rw [if_neg hni]
  rw [toBytesLoop_exit cfg buf s.meta.tail 0 ((s.meta.tail - 0).toNat + 1) 0 s 16
    (by rw [ht]; norm_num)]
  simp [if_neg hni, ht]

/-- Witness for C7 amended at the concrete empty log (metadata.ver = -1,
stale entry version 0 ≠ 5). -/
theorem C7_amended_witness :
    to_bytes defaultCfg emptyLog zeroWire 5
      = (emptyLog, { zeroWire with hdrVer := emptyLog.meta.ver, hdrN := 0 }, 16) :=
  C7_amended defaultCfg emptyLog zeroWire 5 rfl rfl (by decide)

/-- C8 (code bug): the only live entry of oneEntryLog has
(hlc_r, hlc_l) = (100, 5), so getHLCIndex((100, 7)) matches no live
entry's pair, yet it returns index 0 instead of failing with NotFound:
the loop declares a match as soon as hlc_r agrees. -/
theorem C8_getHLCIndex_eval :
    getHLCIndex oneEntryLog ⟨100, 7⟩ = some 0 ∧
    oneEntryLog.meta.head = 0 ∧ oneEntryLog.meta.tail = 1 ∧
    (oneEntryLog.entries 0).hlc_r = 100 ∧ (oneEntryLog.entries 0).hlc_l = 5 := by
  decide

/-- C1 (code bug): applying to_bytes(L, -1) of the one-entry log L to an
empty receiver (head = tail = 0, metadata.ver = -1, zeroed device and
buffer) does not reproduce L.  The buffer to_bytes produces carries the
correct header (ver 1, count 1) but zero record bytes (its std::copy
calls write the buffer over the device instead), and to_bytes corrupts
the sender's own entry; applyLogTail then overwrites the wire record
with the receiver's stale device entry, so the receiver finishes with
metadata.ver = 0 and a zero entry with no payload, instead of L's
(ver 1, dlen 1, payload 97). -/
theorem C1_roundtrip_eval :
    oneEntryLog.meta.ver = 1 ∧ (oneEntryLog.entries 0).ver = 1 ∧
    (oneEntryLog.entries 0).dlen = 1 ∧ oneEntryLog.data 0 = [97] ∧
    emptyLog.meta.ver = -1 ∧
    ((to_bytes defaultCfg oneEntryLog zeroWire (-1)).1.entries 0).ver = 0 ∧
    (to_bytes defaultCfg oneEntryLog zeroWire (-1)).2.1.hdrVer = 1 ∧
    (to_bytes defaultCfg oneEntryLog zeroWire (-1)).2.1.hdrN = 1 ∧
    (applyLogTail emptyLog (to_bytes defaultCfg oneEntryLog zeroWire (-1)).2.1).meta.head = 0 ∧
    (applyLogTail emptyLog (to_bytes defaultCfg oneEntryLog zeroWire (-1)).2.1).meta.tail = 1 ∧
    (applyLogTail emptyLog (to_bytes defaultCfg oneEntryLog zeroWire (-1)).2.1).meta.ver = 0 ∧
    ((applyLogTail emptyLog (to_bytes defaultCfg oneEntryLog zeroWire (-1)).2.1).entries 0).ver = 0 ∧
    ((applyLogTail emptyLog (to_bytes defaultCfg oneEntryLog zeroWire (-1)).2.1).entries 0).dlen = 0 ∧
    (applyLogTail emptyLog (to_bytes defaultCfg oneEntryLog zeroWire (-1)).2.1).data 0 = [] := by
  decide

/-- C9 counterexample: with defaultCfg the claimed capacity is
tableLen * ENTRIES_PER_SEGMENT = 4 * 64 = 256 entries; on capacityLog
(head = 0, tail = 256) an append with a fresh version succeeds — no
LogFull — and leaves tail = 257, so tail - head exceeds the claimed
bound. -/
theorem C9_counterexample :
    defaultCfg.tableLen * (2 ^ defaultCfg.segBit / defaultCfg.entrySize) = 256 ∧
    capacityLog.meta.head = 0 ∧ capacityLog.meta.tail = 256 ∧
    (append defaultCfg capacityLog [] 0 1 ⟨0, 0⟩).2 = none ∧
    (append defaultCfg capacityLog [] 0 1 ⟨0, 0⟩).1.meta.tail = 257 ∧
    (append defaultCfg capacityLog [] 0 1 ⟨0, 0⟩).1.meta.head = 0 := by decide

/-- C9 amended: given a non-regressing version, append raises LogFull
exactly when, on the pre-append metadata,
((sizeof(LogEntry) * tail) >> SPDK_SEGMENT_BIT) -
((sizeof(LogEntry) * head) >> SPDK_SEGMENT_BIT) exceeds
SPDK_LOG_ENTRY_ADDRESS_TABLE_LENGTH; this segment-granular check admits
appends past the claimed entry bound: from head = 0 and
tail = tableLen * ENTRIES_PER_SEGMENT an append succeeds and leaves
tail - head = tableLen * ENTRIES_PER_SEGMENT + 1. -/
theorem C9_amended (cfg : SPDKConfig) :
    (∀ (s : LogState) (pdata : List Nat) (size : Nat) (ver : Int) (mhlc : HLC),
      s.meta.ver < ver →
      ((append cfg s pdata size ver mhlc).2 = some LogErr.logFull ↔
        ((cfg.entrySize : Int) * s.meta.tail) / 2 ^ cfg.segBit
          - ((cfg.entrySize : Int) * s.meta.head) / 2 ^ cfg.segBit
          > (cfg.tableLen : Int))) ∧
    (∀ (s : LogState) (pdata : List Nat) (size : Nat) (ver : Int) (mhlc : HLC),
      cfg.entrySize ∣ 2 ^ cfg.segBit →
      s.meta.head = 0 →
      s.meta.tail = ((cfg.tableLen * (2 ^ cfg.segBit / cfg.entrySize) : Nat) : Int) →
      s.meta.ver < ver →
      (append cfg s pdata size ver mhlc).2 = none ∧
      (append cfg s pdata size ver mhlc).1.meta.tail
          - (append cfg s pdata size ver mhlc).1.meta.head
        = ((cfg.tableLen * (2 ^ cfg.segBit / cfg.entrySize) : Nat) : Int) + 1) := by
  constructor
  · intro s pdata size ver mhlc h
    have h' : ¬ ver ≤ s.meta.ver := not_le.mpr h
    by_cases hc : ((cfg.entrySize : Int) * s.meta.tail) / 2 ^ cfg.segBit
        - ((cfg.entrySize : Int) * s.meta.head) / 2 ^ cfg.segBit > (cfg.tableLen : Int)
    · simp [append, if_neg h', if_pos hc, hc]
    · simp [append, if_neg h', if_neg hc, hc]
  · intro s pdata size ver mhlc hdvd hh ht h
    have h' : ¬ ver ≤ s.meta.ver := not_le.mpr h
    have hnat : cfg.entrySize * (cfg.tableLen * (2 ^ cfg.segBit / cfg.entrySize))
        = cfg.tableLen * 2 ^ cfg.segBit := by
      rw [mul_left_comm, Nat.mul_div_cancel' hdvd]
    have hcast : (cfg.entrySize : Int)
          * ((cfg.tableLen * (2 ^ cfg.segBit / cfg.entrySize) : Nat) : Int)
        = (cfg.tableLen : Int) * 2 ^ cfg.segBit := by
      exact_mod_cast hnat
    have h2 : ((2 : Int) ^ cfg.segBit) ≠ 0 := by positivity
    have hcap : ¬ (((cfg.entrySize : Int) * s.meta.tail) / 2 ^ cfg.segBit
        - ((cfg.entrySize : Int) * s.meta.head) / 2 ^ cfg.segBit
        > (cfg.tableLen : Int)) := by
      rw [hh, ht, hcast, mul_zero, Int.zero_ediv, Int.mul_ediv_cancel _ h2]
      omega
    simp only [append, if_neg h', if_neg hcap]
    simp [hh, ht]

/-- Witness for C9 amended at defaultCfg and capacityLog: the claimed
capacity is 256 and the append leaves tail - head = 257. -/
theorem C9_amended_witness :
    (append defaultCfg capacityLog [] 0 1 ⟨0, 0⟩).2 = none ∧
    (append defaultCfg capacityLog [] 0 1 ⟨0, 0⟩).1.meta.tail
        - (append defaultCfg capacityLog [] 0 1 ⟨0, 0⟩).1.meta.head
      = ((defaultCfg.tableLen * (2 ^ defaultCfg.segBit / defaultCfg.entrySize) : Nat) : Int) + 1 :=
  (C9_amended defaultCfg).2 capacityLog [] 0 1 ⟨0, 0⟩ (by decide) rfl (by decide) (by decide)

/-- C10: zeroout resets head, tail and inuse, commits exactly that
metadata, leaves metadata.ver and the device stores untouched, and a
subsequent append is accepted (no error) precisely when its version
exceeds the pre-zeroout metadata.ver. -/
theorem C10_zeroout_frame (cfg : SPDKConfig) (s : LogState) (pdata : List Nat)
    (size : Nat) (ver : Int) (mhlc : HLC) :
    (zeroout s).meta.head = 0 ∧ (zeroout s).meta.tail = 0 ∧
    (zeroout s).meta.inuse = false ∧ (zeroout s).meta.ver = s.meta.ver ∧
    (zeroout s).committed = (zeroout s).meta ∧
    (∀ i, (zeroout s).entries i = s.entries i) ∧
    (∀ i, (zeroout s).data i = s.data i) ∧
    ((append cfg (zeroout s) pdata size ver mhlc).2 = none ↔ s.meta.ver < ver) := by
  refine ⟨rfl, rfl, rfl, rfl, rfl, fun i => rfl, fun i => rfl, ?_⟩
  by_cases h : ver ≤ s.meta.ver
  · have hres : (append cfg (zeroout s) pdata size ver mhlc).2
        = some LogErr.versionRegression := by
      simp [append, zeroout, h]
    rw [hres]
    simp
    omega
  · have h' : ¬ ver ≤ (zeroout s).meta.ver := h
    have hcap : ¬ (((cfg.entrySize : Int) * (zeroout s).meta.tail) / 2 ^ cfg.segBit
        - ((cfg.entrySize : Int) * (zeroout s).meta.head) / 2 ^ cfg.segBit
        > (cfg.tableLen : Int)) := by
      show ¬ (((cfg.entrySize : Int) * 0) / 2 ^ cfg.segBit
        - ((cfg.entrySize : Int) * 0) / 2 ^ cfg.segBit > (cfg.tableLen : Int))
      simp
    simp only [append, if_neg h', if_neg hcap]
    simp
    omega

/-- Witness for C10 at the scenario-1 log: zeroout keeps ver = 3, the
entry at index 1 is untouched, and append with ver = 4 is accepted. -/
theorem C10_zeroout_frame_witness :
    (zeroout scenario1).meta.head = 0 ∧ (zeroout scenario1).meta.tail = 0 ∧
    (zeroout scenario1).meta.inuse = false ∧
    (zeroout scenario1).meta.ver = scenario1.meta.ver ∧
    (zeroout scenario1).entries 1 = scenario1.entries 1 ∧
    (append defaultCfg (zeroout scenario1) [] 0 4 ⟨0, 0⟩).2 = none :=
  ⟨(C10_zeroout_frame defaultCfg scenario1 [] 0 4 ⟨0, 0⟩).1,
   (C10_zeroout_frame defaultCfg scenario1 [] 0 4 ⟨0, 0⟩).2.1,
   (C10_zeroout_frame defaultCfg scenario1 [] 0 4 ⟨0, 0⟩).2.2.1,
   (C10_zeroout_frame defaultCfg scenario1 [] 0 4 ⟨0, 0⟩).2.2.2.1,
   (C10_zeroout_frame defaultCfg scenario1 [] 0 4 ⟨0, 0⟩).2.2.2.2.2.1 1,
   ((C10_zeroout_frame defaultCfg scenario1 [] 0 4 ⟨0, 0⟩).2.2.2.2.2.2.2).mpr (by decide)⟩
